import Mathlib

/-!
Verification of the incremental datatype generator in `proj/dtgen/project.py`.

The development shallowly embeds the module: a filesystem is an association
list from paths (component lists) to file contents (lists of text lines,
newline-free), and every fallible Python function becomes an `Except PyErr`
computation.  External collaborators that are not part of the repository
source (the hash provider `proj.hash.get_file_hash`, the spec loaders and
renderers, `proj.config_file` helpers, the formatter, and the `json` /
`bytes.fromhex` standard library) are modelled from the specification, as
noted on each such definition.
-/

namespace DtGen

/-- Python exception outcomes that the embedded functions can raise. -/
inductive PyErr where
  | assertionError
  | jsonDecodeError
  | valueError
  | ioError
  | specLoadError
  deriving DecidableEq

instance {ε α : Type _} [DecidableEq ε] [DecidableEq α] : DecidableEq (Except ε α) :=
  fun x y =>
    match x, y with
    | Except.ok a, Except.ok b =>
      if h : a = b then Decidable.isTrue (by rw [h])
      else Decidable.isFalse (by simp [h])
    | Except.error a, Except.error b =>
      if h : a = b then Decidable.isTrue (by rw [h])
      else Decidable.isFalse (by simp [h])
    | Except.ok _, Except.error _ => Decidable.isFalse (by simp)
    | Except.error _, Except.ok _ => Decidable.isFalse (by simp)

/-- The double-quote character. -/
def qu : Char := Char.ofNat 34

/-- The backslash character. -/
def bslash : Char := Char.ofNat 92

/-- The opening-brace character. -/
def lbrace : Char := Char.ofNat 123

/-- The closing-brace character. -/
def rbrace : Char := Char.ofNat 125

/-- Python whitespace, as stripped by `str.rstrip` and skipped by `json`. -/
def isPyWs (c : Char) : Bool :=
  c.toNat = 32 || c.toNat = 9 || c.toNat = 10 || c.toNat = 11 || c.toNat = 12 || c.toNat = 13

/-- Remove trailing whitespace from a character list (`str.rstrip`). -/
def rstripL (cs : List Char) : List Char :=
  (cs.reverse.dropWhile isPyWs).reverse

/-- Python `str.rstrip()`. -/
def pyRstrip (s : String) : String := String.mk (rstripL s.data)

/-- Concatenate a list of strings. -/
def strConcat : List String → String
  | [] => ""
  | s :: rest => s ++ strConcat rest

/-- Join a list of strings with a separator. -/
def sepJoin (sep : String) : List String → String
  | [] => ""
  | [s] => s
  | s :: rest => s ++ sep ++ sepJoin sep rest

/-- Lowercase hexadecimal digit for a value below 16 (Python `bytes.hex`). -/
def hexDigitChar (n : Nat) : Char :=
  if n < 10 then Char.ofNat (48 + n) else Char.ofNat (87 + n)

/-- Modelled from the spec / standard library: Python `bytes.hex()`, the
lowercase hexadecimal rendering of a byte string (two digits per byte). -/
def bytesHex (bs : List Nat) : String :=
  String.mk (bs.flatMap fun b => [hexDigitChar (b / 16), hexDigitChar (b % 16)])

/-- Numeric value of a hexadecimal digit, if any (digits `0-9a-fA-F`). -/
def hexVal (c : Char) : Option Nat :=
  if 48 ≤ c.toNat ∧ c.toNat ≤ 57 then some (c.toNat - 48)
  else if 97 ≤ c.toNat ∧ c.toNat ≤ 102 then some (c.toNat - 87)
  else if 65 ≤ c.toNat ∧ c.toNat ≤ 70 then some (c.toNat - 55)
  else none

/-- Core of `bytes.fromhex`: consume pairs of hexadecimal digits; any
non-digit character or an odd digit count raises `ValueError`. -/
def fromhexCore : List Char → Except PyErr (List Nat)
  | [] => Except.ok []
  | [_] => Except.error PyErr.valueError
  | c1 :: c2 :: rest =>
    match hexVal c1, hexVal c2 with
    | some a, some b =>
      match fromhexCore rest with
      | Except.ok bs => Except.ok ((a * 16 + b) :: bs)
      | Except.error e => Except.error e
    | _, _ => Except.error PyErr.valueError

/-- Modelled from the spec / standard library: Python `bytes.fromhex`,
raising `ValueError` on input that is not valid hexadecimal. -/
def bytes_fromhex (s : String) : Except PyErr (List Nat) := fromhexCore s.data

/-- One step of the modelled content hash, folding a line into an
accumulator byte. -/
def lineHash (a : Nat) (l : String) : Nat :=
  l.data.foldl (fun x c => (x * 31 + c.toNat + 1) % 256) ((a * 131 + 7) % 256)

/-- Modelled from the spec: `proj.hash.get_file_hash` is the external hash
provider, a deterministic content digest over the file's exact contents
(any strong digest qualifies per section 4.2); modelled as a one-byte
rolling hash over the lines. -/
def hashBytesOf (c : List String) : List Nat := [c.foldl lineHash 1 % 256]

/-- Skip JSON whitespace. -/
def skipWs (cs : List Char) : List Char := cs.dropWhile isPyWs

/-- Characters allowed inside a modelled JSON string literal (no quote, no
escape). -/
def jstrChar (c : Char) : Bool := !(c = qu || c = bslash)

/-- Parse a JSON string literal (escape-free fragment). -/
def parseJString : List Char → Option (String × List Char)
  | [] => none
  | c :: rest =>
    if c = qu then
      match rest.dropWhile jstrChar with
      | c2 :: rest2 =>
        if c2 = qu then some (String.mk (rest.takeWhile jstrChar), rest2) else none
      | [] => none
    else none

/-- Parse a nonempty comma-separated sequence of `"key": "value"` pairs. -/
def parsePairsAux : Nat → List Char → Option (List (String × String) × List Char)
  | 0, _ => none
  | fuel + 1, cs =>
    match parseJString cs with
    | none => none
    | some (k, cs1) =>
      match skipWs cs1 with
      | c :: cs2 =>
        if c = ':' then
          match parseJString (skipWs cs2) with
          | none => none
          | some (v, cs3) =>
            match skipWs cs3 with
            | c2 :: cs4 =>
              if c2 = ',' then
                match parsePairsAux fuel (skipWs cs4) with
                | some (kvs, rest) => some ((k, v) :: kvs, rest)
                | none => none
              else some ([(k, v)], c2 :: cs4)
            | [] => some ([(k, v)], [])
        else none
      | [] => none

/-- Modelled from the spec / standard library: `json.loads`, restricted to
the flat string-valued objects this system ever serializes (section 6
fixes the provenance block to exactly such an object); any other input is
a `JSONDecodeError`. -/
def parseFlatJson (s : String) : Except PyErr (List (String × String)) :=
  match skipWs s.data with
  | c :: cs1 =>
    if c = lbrace then
      match skipWs cs1 with
      | c2 :: cs3 =>
        if c2 = rbrace then
          (if skipWs cs3 = [] then Except.ok [] else Except.error PyErr.jsonDecodeError)
        else
          match parsePairsAux (c2 :: cs3).length (c2 :: cs3) with
          | some (kvs, rest) =>
            match skipWs rest with
            | c3 :: cs4 =>
              if c3 = rbrace ∧ skipWs cs4 = [] then Except.ok kvs
              else Except.error PyErr.jsonDecodeError
            | [] => Except.error PyErr.jsonDecodeError
          | none => Except.error PyErr.jsonDecodeError
      | [] => Except.error PyErr.jsonDecodeError
    else Except.error PyErr.jsonDecodeError
  | [] => Except.error PyErr.jsonDecodeError

/-- Python `json.loads` as used by `_load_proj_metadata`. -/
def json_loads (s : String) : Except PyErr (List (String × String)) := parseFlatJson s

/-- A filesystem path, as its list of components below the filesystem root. -/
abbrev FPath := List String

/-- The contents of a text file, as its list of lines (newline-free). -/
abbrev FileLines := List String

/-- A filesystem: an association list from paths to regular-file contents. -/
abbrev FS := List (FPath × FileLines)

/-- Read a regular file; `none` when the path is not a file. -/
def fsRead (fs : FS) (p : FPath) : Option FileLines :=
  (fs.find? fun e => decide (e.1 = p)).map (·.2)

/-- Write (create or overwrite) a regular file. -/
def fsWrite (fs : FS) (p : FPath) (c : FileLines) : FS :=
  (p, c) :: fs.filter fun e => !(decide (e.1 = p))

/-- The filename of a path (its last component). -/
def fileNameOf (p : FPath) : String := (p.getLast?).getD ""

/-- Split a character list at every dot. -/
def splitDotAux : List Char → List Char → List (List Char)
  | [], acc => [acc.reverse]
  | c :: rest, acc =>
    if c = '.' then acc.reverse :: splitDotAux rest [] else splitDotAux rest (c :: acc)

/-- `str.split('.')`. -/
def splitDots (s : String) : List String := (splitDotAux s.data []).map String.mk

/-- `str.lstrip('.')`. -/
def dropLeadingDots (s : String) : String :=
  String.mk (s.data.dropWhile fun c => c = '.')

/-- `pathlib.PurePath.suffixes` of a filename: no suffixes when the name
ends in a dot; otherwise each dot-separated segment after the first of the
name with leading dots removed, with the dot restored. -/
def pySuffixes (name : String) : List String :=
  if name.data.getLast? = some '.' then []
  else ((splitDots (dropLeadingDots name)).tail).map fun s => "." ++ s

/-- `''.join(path.suffixes[-2:])`, the dispatch key of `generate_files`. -/
def lastTwoSuffix (name : String) : String :=
  strConcat ((pySuffixes name).drop ((pySuffixes name).length - 2))

/-- `pathlib.PurePath.suffix` of a filename: the part from the last dot,
provided that dot is neither the first nor the last character. -/
def pySuffix (name : String) : String :=
  let cs := name.data
  let r := cs.reverse.findIdx fun c => c = '.'
  if r < cs.length then
    let i := cs.length - 1 - r
    if 0 < i ∧ i < cs.length - 1 then String.mk (cs.drop i) else ""
  else ""

/-- `pathlib.PurePath.with_suffix` on a filename: drop the current suffix
and append the new one. -/
def withSuffix (name suffix : String) : String :=
  String.mk (name.data.take (name.data.length - (pySuffix name).data.length)) ++ suffix

/-- Project configuration (`proj.config_file.ProjectConfig`), restricted to
the field this module consumes. -/
structure ProjectConfig where
  header_extension : String
  deriving DecidableEq

/-- The header output path of a spec path, as computed in `generate_files`:
`spec_path.with_suffix('').with_suffix('.dtg' + config.header_extension)`. -/
def hdrOf (cfg : ProjectConfig) (p : FPath) : FPath :=
  p.dropLast ++ [withSuffix (withSuffix (fileNameOf p) "") (".dtg" ++ cfg.header_extension)]

/-- Modelled from the spec: `proj.config_file.get_source_path` derives the
source path from the header path by a fixed naming convention; modelled as
replacing the header suffix with `.c` (the section 8 example maps
`point.dtg.h` to `point.dtg.c`). -/
def get_source_path (p : FPath) : FPath :=
  p.dropLast ++ [withSuffix (fileNameOf p) ".c"]

/-- The source output path of a spec path. -/
def srcOf (cfg : ProjectConfig) (p : FPath) : FPath := get_source_path (hdrOf cfg p)

/-- Modelled from the spec: `proj.config_file.gen_ifndef_uid`, a
deterministic include-guard macro name derived from the output path. -/
def gen_ifndef_uid (p : FPath) : String := "_" ++ sepJoin "_" p ++ "_H"

/-- Modelled from the spec: `proj.config_file.get_include_path`, the
project-relative include path of an output path. -/
def get_include_path (p : FPath) : String := sepJoin "/" p

/-- `path.relative_to(root)` rendered as a string; the module only applies
it to paths below the root. -/
def relStr (p root : FPath) : String := sepJoin "/" (p.drop root.length)

/-- Typed representation of a struct spec (schema external to this module). -/
structure StructSpec where
  name : String
  deriving DecidableEq

/-- Typed representation of an enum spec (schema external to this module). -/
structure EnumSpec where
  name : String
  deriving DecidableEq

/-- Typed representation of a variant spec (schema external to this module). -/
structure VariantSpec where
  name : String
  deriving DecidableEq

/-- The three typed spec representations `generate_files` dispatches over. -/
inductive SpecVal where
  | struct (s : StructSpec)
  | enum (e : EnumSpec)
  | variant (v : VariantSpec)
  deriving DecidableEq

/-- Modelled from the spec: the external TOML spec loaders fail with a load
error on malformed content; modelled as requiring a leading `name = `
line. -/
def parseNameLine (c : FileLines) : Except PyErr String :=
  match c with
  | l :: _ =>
    if ("name = ").data.isPrefixOf l.data then Except.ok (String.mk (l.data.drop 7))
    else Except.error PyErr.specLoadError
  | [] => Except.error PyErr.specLoadError

/-- Modelled from the spec: `proj.dtgen.struct.spec.load_spec`. -/
def load_struct_spec (c : FileLines) : Except PyErr StructSpec :=
  (parseNameLine c).map StructSpec.mk

/-- Modelled from the spec: `proj.dtgen.enum.spec.load_spec`. -/
def load_enum_spec (c : FileLines) : Except PyErr EnumSpec :=
  (parseNameLine c).map EnumSpec.mk

/-- Modelled from the spec: `proj.dtgen.variant.spec.load_spec`. -/
def load_variant_spec (c : FileLines) : Except PyErr VariantSpec :=
  (parseNameLine c).map VariantSpec.mk

/-- Modelled from the spec: the external header renderers, dispatched over
the spec kind exactly as the `isinstance` chain in `generate_header`. -/
def renderHeaderBody : SpecVal → FileLines
  | SpecVal.struct s => ["struct " ++ s.name ++ ";"]
  | SpecVal.variant v => ["variant " ++ v.name ++ ";"]
  | SpecVal.enum e => ["enum " ++ e.name ++ ";"]

/-- Modelled from the spec: the external source renderers, dispatched over
the spec kind exactly as the `isinstance` chain in `generate_source`. -/
def renderSourceBody : SpecVal → FileLines
  | SpecVal.struct s => ["struct body " ++ s.name]
  | SpecVal.variant v => ["variant body " ++ v.name]
  | SpecVal.enum e => ["enum body " ++ e.name]

/-- The recognized double-suffix patterns of `find_files`. -/
def specPatterns : List String := [".struct.toml", ".enum.toml", ".variant.toml"]

/-- The blacklist check of `find_files`: `found.is_relative_to(blacklisted)`
for the three excluded subtrees (path containment, i.e. component-prefix).
The Python inner function takes a parameter `p` but its body reads the
enclosing loop variable `found`; as it is only ever called as
`is_blacklisted(found)`, that is behaviorally the same as using the
parameter, which is how it is modelled here. -/
def is_blacklisted (root : FPath) (p : FPath) : Bool :=
  (root ++ ["triton"]).isPrefixOf p || (root ++ ["deps"]).isPrefixOf p ||
    (root ++ ["build"]).isPrefixOf p

/-- One `root.rglob(pattern)` hit: a path strictly below the root whose
filename matches the glob `*<pattern>` (glob `*` also matches the empty
string, so this is a suffix test on the filename). -/
def rglobMatch (root : FPath) (pat : String) (p : FPath) : Bool :=
  root.isPrefixOf p && decide (root.length < p.length) &&
    pat.data.isSuffixOf (fileNameOf p).data

/-- `find_files`: for each pattern, every non-blacklisted glob hit, in
filesystem order. -/
def find_files (fs : FS) (root : FPath) : List FPath :=
  specPatterns.flatMap fun pat =>
    (fs.map Prod.fst).filter fun p => rglobMatch root pat p && !is_blacklisted root p

/-- The start marker of the provenance block. -/
def provMarkerStart : String := "/* proj-data"

/-- The end marker of the provenance block. -/
def provMarkerEnd : String := "*/"

/-- The single body line of the serialized provenance object,
`json.dumps({'generated_from': hx}, sort_keys=True, indent=2)` line 2. -/
def kvLine (hx : String) : String :=
  ("  \x22generated_from\x22: \x22" ++ hx) ++ "\x22"

/-- The five lines written by `render_proj_metadata`: the start marker, the
`json.dumps(..., sort_keys=True, indent=2)` rendering of the provenance
object, and the end marker. -/
def provLines (hx : String) : FileLines :=
  [provMarkerStart, "\x7b", kvLine hx, "\x7d", provMarkerEnd]

/-- `get_file_hash` lifted to the modelled filesystem: the digest of a
file's contents, `none` when the file cannot be read. -/
def get_file_hash (fs : FS) (p : FPath) : Option (List Nat) :=
  (fsRead fs p).map hashBytesOf

/-- `render_proj_metadata`: hash the spec file (asserting success) and emit
the provenance block lines. -/
def render_proj_metadata (fs : FS) (spec_path : FPath) : Except PyErr FileLines :=
  match get_file_hash fs spec_path with
  | none => Except.error PyErr.assertionError
  | some d => Except.ok (provLines (bytesHex d))

/-- The line scan of `_load_proj_metadata`: walk the lines, right-stripping
each; a repeated start marker is an assertion failure; stop successfully at
an end marker seen after the start marker, accumulating the lines strictly
between the markers; report an unfinished scan at end of file. -/
def scanLines : List String → Bool → String → Except PyErr (Bool × String)
  | [], _, found => Except.ok (false, found)
  | l :: rest, started, found =>
    let line := pyRstrip l
    if line = provMarkerStart then
      (if started then Except.error PyErr.assertionError else scanLines rest true found)
    else if line = provMarkerEnd then
      (if started then Except.ok (true, found) else scanLines rest started found)
    else
      (if started then scanLines rest started (found ++ line)
       else scanLines rest started found)

/-- `_load_proj_metadata` on a file's lines: scan for the markers; parse the
accumulated text as JSON only when the scan finished, else report `None`. -/
def load_proj_metadata_lines (lines : FileLines) :
    Except PyErr (Option (List (String × String))) :=
  match scanLines lines false "" with
  | Except.error e => Except.error e
  | Except.ok (finished, found) =>
    if finished then (json_loads found).map some else Except.ok none

/-- `load_proj_metadata`: open the file (an I/O error when missing) and run
the line scan. -/
def load_proj_metadata (fs : FS) (p : FPath) :
    Except PyErr (Option (List (String × String))) :=
  match fsRead fs p with
  | none => Except.error PyErr.ioError
  | some lines => load_proj_metadata_lines lines

/-- `get_existing_hash`: `None` for a missing file, a missing provenance
block, or a missing `generated_from` key; otherwise `bytes.fromhex` of the
recorded digest (which can raise `ValueError`). -/
def get_existing_hash (fs : FS) (p : FPath) : Except PyErr (Option (List Nat)) :=
  match fsRead fs p with
  | none => Except.ok none
  | some _ =>
    match load_proj_metadata fs p with
    | Except.error e => Except.error e
    | Except.ok none => Except.ok none
    | Except.ok (some md) =>
      match md.lookup "generated_from" with
      | none => Except.ok none
      | some hx => (bytes_fromhex hx).map some

/-- `needs_generate_to_path`: `False` when the output is not a regular
file; otherwise compare the recorded provenance digest with the current
spec digest (asserting the spec is hashable). -/
def needs_generate_to_path (fs : FS) (spec_path : FPath) (root : FPath) (out : FPath) :
    Except PyErr Bool :=
  match fsRead fs out with
  | none => Except.ok false
  | some _ =>
    match get_existing_hash fs out with
    | Except.error e => Except.error e
    | Except.ok current =>
      match get_file_hash fs spec_path with
      | none => Except.error PyErr.assertionError
      | some nh => Except.ok (decide (¬ (some nh = current)))

/-- The disclaimer comment written at the top of every generated file. -/
def disclaimerLines (spec_path root : FPath) : FileLines :=
  ["// THIS FILE WAS AUTO-GENERATED BY proj. DO NOT MODIFY IT!",
   "// If you would like to modify this datatype, instead modify",
   "// " ++ relStr spec_path root]

/-- The full text written by `generate_header` when it regenerates:
disclaimer, provenance block, include guard, rendered body, guard close. -/
def headerLinesWith (spec : SpecVal) (spec_path root out : FPath) (prov : FileLines) :
    FileLines :=
  disclaimerLines spec_path root ++ prov ++ [""] ++
    ["#ifndef " ++ gen_ifndef_uid out, "#define " ++ gen_ifndef_uid out, ""] ++
    renderHeaderBody spec ++ ["", "#endif // " ++ gen_ifndef_uid out]

/-- The full text written by `generate_source` when it regenerates:
disclaimer, provenance block, include directive, rendered body. -/
def sourceLinesWith (spec : SpecVal) (spec_path root out : FPath) (prov : FileLines) :
    FileLines :=
  disclaimerLines spec_path root ++ prov ++ [""] ++
    ["#include \x22" ++ get_include_path out ++ "\x22", ""] ++ renderSourceBody spec

/-- `generate_header`: skip unless forced or stale (the `force or needs`
test short-circuits, so `force=True` never consults the oracle); on
regeneration write the header text and report `True`. -/
def generate_header (fs : FS) (spec : SpecVal) (spec_path root out : FPath)
    (force : Bool) : Except PyErr (FS × Bool) :=
  match (if force then Except.ok true
         else needs_generate_to_path fs spec_path root out) with
  | Except.error e => Except.error e
  | Except.ok false => Except.ok (fs, false)
  | Except.ok true =>
    match render_proj_metadata fs spec_path with
    | Except.error e => Except.error e
    | Except.ok prov =>
      Except.ok (fsWrite fs out (headerLinesWith spec spec_path root out prov), true)

/-- `generate_source`: same staleness gate as `generate_header`, writing
the source text on regeneration. -/
def generate_source (fs : FS) (spec : SpecVal) (spec_path root out : FPath)
    (force : Bool) : Except PyErr (FS × Bool) :=
  match (if force then Except.ok true
         else needs_generate_to_path fs spec_path root out) with
  | Except.error e => Except.error e
  | Except.ok false => Except.ok (fs, false)
  | Except.ok true =>
    match render_proj_metadata fs spec_path with
    | Except.error e => Except.error e
    | Except.ok prov =>
      Except.ok (fsWrite fs out (sourceLinesWith spec spec_path root out prov), true)

/-- The suffix dispatch of `generate_files`: struct, then variant, then an
asserted enum. -/
def loadDispatch (suffix : String) (c : FileLines) : Except PyErr SpecVal :=
  if suffix = ".struct.toml" then (load_struct_spec c).map SpecVal.struct
  else if suffix = ".variant.toml" then (load_variant_spec c).map SpecVal.variant
  else if suffix = ".enum.toml" then (load_enum_spec c).map SpecVal.enum
  else Except.error PyErr.assertionError

/-- `generate_files`: load the spec (reading its file), derive the output
pair, run header then source generation, and report the paths actually
written. -/
def generate_files (fs : FS) (root : FPath) (cfg : ProjectConfig) (spec_path : FPath)
    (force : Bool) : Except PyErr (FS × List FPath) :=
  match fsRead fs spec_path with
  | none => Except.error PyErr.ioError
  | some c =>
    match loadDispatch (lastTwoSuffix (fileNameOf spec_path)) c with
    | Except.error e => Except.error e
    | Except.ok spec =>
      let header_path := hdrOf cfg spec_path
      let source_path := get_source_path header_path
      match generate_header fs spec spec_path root header_path force with
      | Except.error e => Except.error e
      | Except.ok (fs1, wroteH) =>
        match generate_source fs1 spec spec_path root source_path force with
        | Except.error e => Except.error e
        | Except.ok (fs2, wroteS) =>
          Except.ok (fs2, (if wroteH then [header_path] else []) ++
            (if wroteS then [source_path] else []))

/-- Modelled from the spec: `proj.format.run_formatter` is the external
source formatter; the documented idempotence property (section 8) requires
it to preserve the generated files' provenance, so it is modelled as the
identity on the filesystem. -/
def run_formatter (fs : FS) (root : FPath) (cfg : ProjectConfig)
    (paths : List FPath) : FS := fs

/-- The per-file loop of `run_dtgen`, also accumulating every written path;
an error from one spec file propagates and stops the loop. -/
def run_files (root : FPath) (cfg : ProjectConfig) (force : Bool) :
    FS → List FPath → Except PyErr (FS × List FPath)
  | fs, [] => Except.ok (fs, [])
  | fs, p :: rest =>
    match generate_files fs root cfg p force with
    | Except.error e => Except.error e
    | Except.ok (fs1, w) =>
      let fs2 := if w.length > 0 then run_formatter fs1 root cfg w else fs1
      match run_files root cfg force fs2 rest with
      | Except.error e => Except.error e
      | Except.ok (fs3, ws) => Except.ok (fs3, w ++ ws)

/-- `run_dtgen`: enumerate the spec files (the explicit list, or discovery
over the root) and run generation plus formatting over each in turn. -/
def run_dtgen (fs : FS) (root : FPath) (cfg : ProjectConfig) (force : Bool)
    (files : Option (List FPath)) : Except PyErr (FS × List FPath) :=
  run_files root cfg force fs (files.getD (find_files fs root))

/-- The space character. -/
def sp : Char := Char.ofNat 32

/-- The characters of the literal key of the provenance object. -/
def gfChars : List Char := ['g', 'e', 'n', 'e', 'r', 'a', 't', 'e', 'd', '_', 'f', 'r', 'o', 'm']

/-- An output path is settled for a spec path: it is either absent, or its
recorded provenance digest reads back successfully and equals the current
digest of the spec file. -/
def OutSettled (fs : FS) (spec_path out : FPath) : Prop :=
  fsRead fs out = none ∨
    ∃ hv, get_existing_hash fs out = Except.ok (some hv) ∧
      get_file_hash fs spec_path = some hv

/-- A spec path is settled: its file loads into a typed spec, and both its
outputs are settled, so a forceless run has nothing to do for it. -/
def Settled (fs : FS) (cfg : ProjectConfig) (p : FPath) : Prop :=
  (∃ c spec, fsRead fs p = some c ∧
    loadDispatch (lastTwoSuffix (fileNameOf p)) c = Except.ok spec) ∧
  OutSettled fs p (hdrOf cfg p) ∧ OutSettled fs p (srcOf cfg p)

/-- Every output path of a list of spec paths. -/
def outsOf (cfg : ProjectConfig) (ps : List FPath) : List FPath :=
  ps.flatMap fun p => [hdrOf cfg p, srcOf cfg p]

/-- The independence assumption of section 1: each spec file maps to its
own output pair, with no collisions between outputs and no spec file that
is itself an output. -/
def RunWF (cfg : ProjectConfig) (ps : List FPath) : Prop :=
  (outsOf cfg ps).Nodup ∧ ∀ p ∈ ps, p ∉ outsOf cfg ps

theorem find?_filter_of_imp {α : Type _} (l : List α) (pred keep : α → Bool)
    (h : ∀ e, pred e = true → keep e = true) :
    (l.filter keep).find? pred = l.find? pred := by
  induction l with
  | nil => rfl
  | cons a t ih =>
    by_cases hp : pred a = true
    · rw [List.filter_cons, if_pos (h a hp)]
      rw [List.find?_cons_of_pos _ hp, List.find?_cons_of_pos _ hp]
    · have hp' : pred a = false := by
        cases hq : pred a
        · rfl
        · exact absurd hq hp
      by_cases hk : keep a = true
      · rw [List.filter_cons, if_pos hk, List.find?_cons_of_neg _ (by simp [hp']),
          List.find?_cons_of_neg _ (by simp [hp'])]
        exact ih
      · have hk' : keep a = false := by
          cases hq : keep a
          · rfl
          · exact absurd hq hk
        rw [List.filter_cons, if_neg (by simp [hk']), List.find?_cons_of_neg _ (by simp [hp'])]
        exact ih

theorem fsRead_fsWrite_self (fs : FS) (p : FPath) (c : FileLines) :
    fsRead (fsWrite fs p c) p = some c := by
  unfold fsRead fsWrite
  rw [List.find?_cons_of_pos _ (by simp)]
  rfl

theorem fsRead_fsWrite_ne (fs : FS) (p q : FPath) (c : FileLines) (h : q ≠ p) :
    fsRead (fsWrite fs p c) q = fsRead fs q := by
  unfold fsRead fsWrite
  rw [List.find?_cons_of_neg _ (by simp [Ne.symm h])]
  rw [find?_filter_of_imp]
  intro e he
  have he' : e.1 = q := by simpa using he
  simp [he', h]

theorem dropWhile_suffix_self {α : Type _} (p : α → Bool) (l : List α) :
    l.dropWhile p <:+ l := List.dropWhile_suffix _

theorem rstripL_isPre (cs : List Char) : rstripL cs <+: cs := by
  unfold rstripL
  have h1 : cs.reverse.dropWhile isPyWs <:+ cs.reverse := List.dropWhile_suffix _
  have h2 := List.reverse_prefix.mpr h1
  rwa [List.reverse_reverse] at h2

theorem rstripL_append_last (l : List Char) (c : Char) (h : isPyWs c = false) :
    rstripL (l ++ [c]) = l ++ [c] := by
  unfold rstripL
  rw [List.reverse_append]
  simp only [List.reverse_cons, List.reverse_nil, List.nil_append, List.cons_append]
  rw [List.dropWhile_cons_of_neg (by simp [h])]
  simp

theorem strEta (s : String) : String.mk s.data = s := by
  cases s
  rfl

theorem pyRstrip_eq_imp_isPre {s t : String} (h : pyRstrip s = t) :
    t.data <+: s.data := by
  have hd := congrArg String.data h
  simp only [pyRstrip] at hd
  rw [← hd]
  exact rstripL_isPre _

theorem take_eq_of_isPre {α : Type _} {l1 l2 : List α} (h : l1 <+: l2) (n : Nat)
    (hn : n ≤ l1.length) : l2.take n = l1.take n := by
  obtain ⟨t, rfl⟩ := h
  exact List.take_append_of_le_length hn

/-- A line whose first two characters differ from a (two-or-longer) target's
first two characters cannot right-strip to that target. -/
theorem pyRstrip_ne_of_take2 {s m : String} (hlen : 2 ≤ m.data.length)
    (h : s.data.take 2 ≠ m.data.take 2) : pyRstrip s ≠ m := by
  intro he
  have hp : m.data <+: s.data := pyRstrip_eq_imp_isPre he
  exact h (take_eq_of_isPre hp 2 hlen)

theorem pyRstrip_kvLine (hx : String) : pyRstrip (kvLine hx) = kvLine hx := by
  unfold pyRstrip kvLine
  rw [String.data_append]
  have : ("\x22" : String).data = [qu] := by decide
  rw [this, rstripL_append_last _ _ (by decide)]
  rw [← this, ← String.data_append]

theorem kvLine_take2 (hx : String) : (kvLine hx).data.take 2 = [sp, sp] := by
  unfold kvLine
  rw [String.data_append, String.data_append]
  have h1 : ("  \x22generated_from\x22: \x22" : String).data.take 2 = [sp, sp] := by decide
  rw [List.append_assoc, List.take_append_of_le_length (by decide)]
  exact h1

theorem kvLine_ne_start (hx : String) : pyRstrip (kvLine hx) ≠ provMarkerStart := by
  rw [pyRstrip_kvLine]
  intro h
  have := congrArg (fun s => String.data s |>.take 2) h
  simp only at this
  rw [kvLine_take2 hx] at this
  exact absurd this (by decide)

theorem kvLine_ne_end (hx : String) : pyRstrip (kvLine hx) ≠ provMarkerEnd := by
  rw [pyRstrip_kvLine]
  intro h
  have := congrArg (fun s => String.data s |>.take 2) h
  simp only at this
  rw [kvLine_take2 hx] at this
  exact absurd this (by decide)

theorem relLine_ne_start (s : String) : pyRstrip ("// " ++ s) ≠ provMarkerStart := by
  apply pyRstrip_ne_of_take2 (by decide)
  rw [String.data_append, List.take_append_of_le_length (by decide)]
  decide

theorem disclaimer_not_start (spec_path root : FPath) :
    ∀ l ∈ disclaimerLines spec_path root, pyRstrip l ≠ provMarkerStart := by
  intro l hl
  simp only [disclaimerLines, List.mem_cons, List.not_mem_nil, or_false] at hl
  rcases hl with h | h | h
  · rw [h]; decide
  · rw [h]; decide
  · rw [h]; exact relLine_ne_start _

theorem scanLines_cons_skip (l : String) (rest : List String) (acc : String)
    (h : pyRstrip l ≠ provMarkerStart) :
    scanLines (l :: rest) false acc = scanLines rest false acc := by
  simp only [scanLines]
  rw [if_neg h]
  by_cases h2 : pyRstrip l = provMarkerEnd
  · rw [if_pos h2]; simp
  · rw [if_neg h2]; simp

theorem scanLines_cons_start (l : String) (rest : List String) (acc : String)
    (h : pyRstrip l = provMarkerStart) :
    scanLines (l :: rest) false acc = scanLines rest true acc := by
  simp only [scanLines]
  rw [if_pos h]
  simp

theorem scanLines_cons_finish (l : String) (rest : List String) (acc : String)
    (h : pyRstrip l = provMarkerEnd) :
    scanLines (l :: rest) true acc = Except.ok (true, acc) := by
  have hne : pyRstrip l ≠ provMarkerStart := by rw [h]; decide
  simp only [scanLines]
  rw [if_neg hne, if_pos h]
  simp

theorem scanLines_cons_acc (l : String) (rest : List String) (acc : String)
    (h1 : pyRstrip l ≠ provMarkerStart) (h2 : pyRstrip l ≠ provMarkerEnd) :
    scanLines (l :: rest) true acc = scanLines rest true (acc ++ pyRstrip l) := by
  simp only [scanLines]
  rw [if_neg h1, if_neg h2]
  simp

theorem scanLines_append_skip (pre : List String)
    (h : ∀ l ∈ pre, pyRstrip l ≠ provMarkerStart) (rest : List String) (acc : String) :
    scanLines (pre ++ rest) false acc = scanLines rest false acc := by
  induction pre with
  | nil => rfl
  | cons a t ih =>
    rw [List.cons_append, scanLines_cons_skip _ _ _ (h a (by simp))]
    exact ih fun l hl => h l (by simp [hl])

theorem scanLines_provLines (hx : String) (rest : List String) (acc : String) :
    scanLines (provLines hx ++ rest) false acc =
      Except.ok (true, ((acc ++ "\x7b") ++ kvLine hx) ++ "\x7d") := by
  unfold provLines
  rw [List.cons_append, scanLines_cons_start _ _ _ (by decide)]
  rw [List.cons_append, scanLines_cons_acc _ _ _ (by decide) (by decide)]
  rw [List.cons_append, scanLines_cons_acc _ _ _ (kvLine_ne_start hx) (kvLine_ne_end hx)]
  rw [List.cons_append, scanLines_cons_acc _ _ _ (by decide) (by decide)]
  rw [List.cons_append, scanLines_cons_finish _ _ _ (by decide)]
  have e1 : pyRstrip "\x7b" = "\x7b" := by decide
  have e2 : pyRstrip "\x7d" = "\x7d" := by decide
  rw [e1, e2, pyRstrip_kvLine]

theorem takeWhile_append_all {α : Type _} (p : α → Bool) (l1 l2 : List α)
    (h : ∀ a ∈ l1, p a = true) :
    (l1 ++ l2).takeWhile p = l1 ++ l2.takeWhile p := by
  induction l1 with
  | nil => simp
  | cons a t ih =>
    rw [List.cons_append, List.takeWhile_cons_of_pos (h a (by simp)),
      ih fun x hx => h x (by simp [hx]), List.cons_append]

theorem dropWhile_append_all {α : Type _} (p : α → Bool) (l1 l2 : List α)
    (h : ∀ a ∈ l1, p a = true) :
    (l1 ++ l2).dropWhile p = l2.dropWhile p := by
  induction l1 with
  | nil => simp
  | cons a t ih =>
    rw [List.cons_append, List.dropWhile_cons_of_pos (h a (by simp))]
    exact ih fun x hx => h x (by simp [hx])

theorem skipWs_cons_neg {c : Char} (h : isPyWs c = false) (cs : List Char) :
    skipWs (c :: cs) = c :: cs := by
  unfold skipWs
  rw [List.dropWhile_cons_of_neg (by simp [h])]

theorem skipWs_cons_pos {c : Char} (h : isPyWs c = true) (cs : List Char) :
    skipWs (c :: cs) = skipWs cs := by
  unfold skipWs
  rw [List.dropWhile_cons_of_pos h]

theorem parseJString_shaped (body : List Char) (h : ∀ c ∈ body, jstrChar c = true)
    (rest : List Char) :
    parseJString (qu :: (body ++ (qu :: rest))) = some (String.mk body, rest) := by
  simp only [parseJString]
  rw [dropWhile_append_all _ _ _ h, List.dropWhile_cons_of_neg (by decide),
    takeWhile_append_all _ _ _ h, List.takeWhile_cons_of_neg (by decide)]
  simp

theorem parsePairsAux_gf (fuel : Nat) (vdata : List Char)
    (hv : ∀ c ∈ vdata, jstrChar c = true) :
    parsePairsAux (fuel + 1)
        (qu :: (gfChars ++ (qu :: (':' :: (sp ::
          (qu :: (vdata ++ (qu :: (rbrace :: []))))))))) =
      some ([("generated_from", String.mk vdata)], rbrace :: []) := by
  have s2 : ∀ cs, skipWs (sp :: cs) = skipWs cs := fun cs => skipWs_cons_pos (by decide) cs
  have s3 : ∀ cs, skipWs (qu :: cs) = qu :: cs := fun cs => skipWs_cons_neg (by decide) cs
  have s4 : ∀ cs, skipWs ((':' : Char) :: cs) = ':' :: cs :=
    fun cs => skipWs_cons_neg (by decide) cs
  have s5 : ∀ cs, skipWs (rbrace :: cs) = rbrace :: cs :=
    fun cs => skipWs_cons_neg (by decide) cs
  have f2 : (rbrace = ',') = False := eq_false (by decide)
  have f3 : ((':' : Char) = ':') = True := eq_true rfl
  have hkey : String.mk gfChars = "generated_from" := by decide
  simp only [parsePairsAux, parseJString_shaped gfChars (by decide),
    parseJString_shaped vdata hv, s2, s3, s4, s5, f2, f3, if_true, if_false, hkey]

theorem parseFlatJson_kv (hx : String) (hgood : ∀ c ∈ hx.data, jstrChar c = true) :
    parseFlatJson (("\x7b" ++ kvLine hx) ++ "\x7d") = Except.ok [("generated_from", hx)] := by
  have hdata : (("\x7b" ++ kvLine hx) ++ "\x7d").data
      = lbrace :: (sp :: (sp :: (qu :: (gfChars ++
          (qu :: (':' :: (sp :: (qu :: (hx.data ++ (qu :: (rbrace :: []))))))))))) := by
    simp only [kvLine, String.data_append, List.append_assoc]
    rfl
  have sws1 : ∀ cs, skipWs (lbrace :: cs) = lbrace :: cs := fun cs => skipWs_cons_neg (by decide) cs
  have sws2 : ∀ cs, skipWs (sp :: cs) = skipWs cs := fun cs => skipWs_cons_pos (by decide) cs
  have sws3 : ∀ cs, skipWs (qu :: cs) = qu :: cs := fun cs => skipWs_cons_neg (by decide) cs
  have sws5 : ∀ cs, skipWs (rbrace :: cs) = rbrace :: cs := fun cs => skipWs_cons_neg (by decide) cs
  have f1 : (qu = rbrace) = False := eq_false (by decide)
  have f6 : (rbrace = rbrace ∧ skipWs [] = []) = True := eq_true ⟨rfl, rfl⟩
  have f7 : (lbrace = lbrace) = True := eq_true rfl
  simp only [parseFlatJson, hdata, sws1, sws2, sws3, sws5, f1, f7, if_true, if_false,
    List.length_cons, parsePairsAux_gf _ hx.data hgood, f6, strEta]
  simp [skipWs]

theorem load_metadata_generated (pre : List String)
    (hpre : ∀ l ∈ pre, pyRstrip l ≠ provMarkerStart)
    (hx : String) (hgood : ∀ c ∈ hx.data, jstrChar c = true) (rest : List String) :
    load_proj_metadata_lines (pre ++ (provLines hx ++ rest)) =
      Except.ok (some [("generated_from", hx)]) := by
  unfold load_proj_metadata_lines
  rw [scanLines_append_skip pre hpre, scanLines_provLines]
  have h0 : (("" : String) ++ "\x7b") = "\x7b" := by decide
  simp only [h0, json_loads, if_pos]
  rw [parseFlatJson_kv hx hgood]
  rfl

theorem hexDigitChar_good (n : Nat) (h : n < 16) : jstrChar (hexDigitChar n) = true := by
  interval_cases n <;> decide

theorem hexVal_hexDigitChar (n : Nat) (h : n < 16) : hexVal (hexDigitChar n) = some n := by
  interval_cases n <;> decide

theorem bytesHex_good (d : List Nat) (hd : ∀ b ∈ d, b < 256) :
    ∀ c ∈ (bytesHex d).data, jstrChar c = true := by
  intro c hc
  unfold bytesHex at hc
  rw [show (String.mk (d.flatMap fun b => [hexDigitChar (b / 16), hexDigitChar (b % 16)])).data
      = d.flatMap fun b => [hexDigitChar (b / 16), hexDigitChar (b % 16)] from rfl] at hc
  rw [List.mem_flatMap] at hc
  obtain ⟨b, hb, hcb⟩ := hc
  have hb' := hd b hb
  have hdiv : b / 16 < 16 := by omega
  have hmod : b % 16 < 16 := Nat.mod_lt _ (by norm_num)
  simp only [List.mem_cons, List.not_mem_nil, or_false] at hcb
  rcases hcb with h | h
  · rw [h]; exact hexDigitChar_good _ hdiv
  · rw [h]; exact hexDigitChar_good _ hmod

theorem fromhex_bytesHex (d : List Nat) (hd : ∀ b ∈ d, b < 256) :
    bytes_fromhex (bytesHex d) = Except.ok d := by
  unfold bytes_fromhex bytesHex
  induction d with
  | nil => rfl
  | cons b t ih =>
    have hb := hd b (by simp)
    have hdiv : b / 16 < 16 := by omega
    have hmod : b % 16 < 16 := Nat.mod_lt _ (by norm_num)
    have ih' := ih fun x hx => hd x (by simp [hx])
    rw [show (String.mk ((b :: t).flatMap fun x => [hexDigitChar (x / 16), hexDigitChar (x % 16)])).data
        = hexDigitChar (b / 16) :: (hexDigitChar (b % 16) ::
            (t.flatMap fun x => [hexDigitChar (x / 16), hexDigitChar (x % 16)])) by
      simp]
    rw [show (String.mk (t.flatMap fun x => [hexDigitChar (x / 16), hexDigitChar (x % 16)])).data
        = t.flatMap fun x => [hexDigitChar (x / 16), hexDigitChar (x % 16)] from rfl] at ih'
    simp only [fromhexCore, hexVal_hexDigitChar _ hdiv, hexVal_hexDigitChar _ hmod, ih']
    have : b / 16 * 16 + b % 16 = b := by omega
    rw [this]

theorem hashBytesOf_lt (c : List String) : ∀ b ∈ hashBytesOf c, b < 256 := by
  intro b hb
  unfold hashBytesOf at hb
  simp only [List.mem_cons, List.not_mem_nil, or_false] at hb
  rw [hb]
  exact Nat.mod_lt _ (by norm_num)

theorem get_existing_hash_of_written (fs : FS) (out : FPath) (pre rest : List String)
    (hpre : ∀ l ∈ pre, pyRstrip l ≠ provMarkerStart) (d : List Nat)
    (hd : ∀ b ∈ d, b < 256)
    (hread : fsRead fs out = some (pre ++ (provLines (bytesHex d) ++ rest))) :
    get_existing_hash fs out = Except.ok (some d) := by
  have h1 : load_proj_metadata fs out = Except.ok (some [("generated_from", bytesHex d)]) := by
    unfold load_proj_metadata
    rw [hread]
    exact load_metadata_generated pre hpre _ (bytesHex_good d hd) rest
  unfold get_existing_hash
  rw [hread, h1]
  have hlk : List.lookup "generated_from" [("generated_from", bytesHex d)]
      = some (bytesHex d) := by simp
  simp only [hlk, fromhex_bytesHex d hd]
  rfl

theorem get_existing_hash_congr {fs2 fs : FS} (out : FPath)
    (h : fsRead fs2 out = fsRead fs out) :
    get_existing_hash fs2 out = get_existing_hash fs out := by
  unfold get_existing_hash load_proj_metadata
  rw [h]

theorem get_file_hash_congr {fs2 fs : FS} (p : FPath)
    (h : fsRead fs2 p = fsRead fs p) :
    get_file_hash fs2 p = get_file_hash fs p := by
  unfold get_file_hash
  rw [h]

theorem needs_generate_missing (fs : FS) (sp root out : FPath)
    (h : fsRead fs out = none) :
    needs_generate_to_path fs sp root out = Except.ok false := by
  unfold needs_generate_to_path
  rw [h]

theorem needs_generate_match (fs : FS) (sp root out : FPath) (L : FileLines)
    (hv : List Nat) (hr : fsRead fs out = some L)
    (hg : get_existing_hash fs out = Except.ok (some hv))
    (hh : get_file_hash fs sp = some hv) :
    needs_generate_to_path fs sp root out = Except.ok false := by
  unfold needs_generate_to_path
  rw [hr, hg, hh]
  simp

theorem needs_generate_stale (fs : FS) (sp root out : FPath) (L : FileLines)
    (cur : Option (List Nat)) (nh : List Nat) (hr : fsRead fs out = some L)
    (hg : get_existing_hash fs out = Except.ok cur)
    (hh : get_file_hash fs sp = some nh) (hne : cur ≠ some nh) :
    needs_generate_to_path fs sp root out = Except.ok true := by
  unfold needs_generate_to_path
  rw [hr, hg, hh]
  simp only [Except.ok.injEq, decide_eq_true_eq]
  intro he
  exact hne (he ▸ rfl)

theorem needs_generate_err (fs : FS) (sp root out : FPath) (L : FileLines)
    (e : PyErr) (hr : fsRead fs out = some L)
    (hg : get_existing_hash fs out = Except.error e) :
    needs_generate_to_path fs sp root out = Except.error e := by
  unfold needs_generate_to_path
  rw [hr, hg]

theorem generate_header_skip (fs : FS) (spec : SpecVal) (sp root out : FPath)
    (hn : needs_generate_to_path fs sp root out = Except.ok false) :
    generate_header fs spec sp root out false = Except.ok (fs, false) := by
  unfold generate_header
  simp only [Bool.false_eq_true, if_false]
  rw [hn]

theorem generate_header_go (fs : FS) (spec : SpecVal) (sp root out : FPath)
    (force : Bool) (d : List Nat)
    (hcond : (if force then Except.ok true
        else needs_generate_to_path fs sp root out) = Except.ok true)
    (hh : get_file_hash fs sp = some d) :
    generate_header fs spec sp root out force =
      Except.ok (fsWrite fs out
        (headerLinesWith spec sp root out (provLines (bytesHex d))), true) := by
  have hprov : render_proj_metadata fs sp = Except.ok (provLines (bytesHex d)) := by
    unfold render_proj_metadata get_file_hash
    unfold get_file_hash at hh
    rw [hh]
  unfold generate_header
  rw [hcond, hprov]

theorem generate_source_skip (fs : FS) (spec : SpecVal) (sp root out : FPath)
    (hn : needs_generate_to_path fs sp root out = Except.ok false) :
    generate_source fs spec sp root out false = Except.ok (fs, false) := by
  unfold generate_source
  simp only [Bool.false_eq_true, if_false]
  rw [hn]

theorem generate_source_go (fs : FS) (spec : SpecVal) (sp root out : FPath)
    (force : Bool) (d : List Nat)
    (hcond : (if force then Except.ok true
        else needs_generate_to_path fs sp root out) = Except.ok true)
    (hh : get_file_hash fs sp = some d) :
    generate_source fs spec sp root out force =
      Except.ok (fsWrite fs out
        (sourceLinesWith spec sp root out (provLines (bytesHex d))), true) := by
  have hprov : render_proj_metadata fs sp = Except.ok (provLines (bytesHex d)) := by
    unfold render_proj_metadata get_file_hash
    unfold get_file_hash at hh
    rw [hh]
  unfold generate_source
  rw [hcond, hprov]

theorem OutSettled_congr {fs2 fs : FS} {sp out : FPath}
    (h : OutSettled fs sp out) (ho : fsRead fs2 out = fsRead fs out)
    (hs : fsRead fs2 sp = fsRead fs sp) : OutSettled fs2 sp out := by
  rcases h with h | ⟨hv, hg, hh⟩
  · left
    rw [ho]
    exact h
  · right
    exact ⟨hv, by rw [get_existing_hash_congr out ho]; exact hg,
      by rw [get_file_hash_congr sp hs]; exact hh⟩

theorem Settled_congr {fs2 fs : FS} {cfg : ProjectConfig} {p : FPath}
    (h : Settled fs cfg p)
    (hs : fsRead fs2 p = fsRead fs p)
    (hh : fsRead fs2 (hdrOf cfg p) = fsRead fs (hdrOf cfg p))
    (hsr : fsRead fs2 (srcOf cfg p) = fsRead fs (srcOf cfg p)) :
    Settled fs2 cfg p := by
  obtain ⟨⟨c, spec, hc, hl⟩, hOH, hOS⟩ := h
  exact ⟨⟨c, spec, by rw [hs]; exact hc, hl⟩,
    OutSettled_congr hOH hh hs, OutSettled_congr hOS hsr hs⟩

theorem OutSettled_of_needs_false {fs : FS} {sp root out : FPath}
    (h : needs_generate_to_path fs sp root out = Except.ok false) :
    OutSettled fs sp out := by
  unfold needs_generate_to_path at h
  cases hr : fsRead fs out with
  | none => exact Or.inl hr
  | some L =>
    rw [hr] at h
    cases hg : get_existing_hash fs out with
    | error e => rw [hg] at h; exact absurd h (by simp)
    | ok cur =>
      rw [hg] at h
      cases hh : get_file_hash fs sp with
      | none => rw [hh] at h; exact absurd h (by simp)
      | some nh =>
        rw [hh] at h
        simp only [Except.ok.injEq, decide_eq_false_iff_not, not_not] at h
        right
        exact ⟨nh, by rw [hg, ← h], hh⟩

theorem needs_false_of_OutSettled {fs : FS} {sp root out : FPath}
    (h : OutSettled fs sp out) :
    needs_generate_to_path fs sp root out = Except.ok false := by
  rcases h with h | ⟨hv, hg, hh⟩
  · exact needs_generate_missing _ _ _ _ h
  · cases hr : fsRead fs out with
    | none =>
      exfalso
      unfold get_existing_hash at hg
      rw [hr] at hg
      exact absurd hg (by simp)
    | some L => exact needs_generate_match fs sp root out L hv hr hg hh

theorem generate_header_inv {fs fs' : FS} {spec : SpecVal} {sp root out : FPath}
    {b : Bool}
    (h : generate_header fs spec sp root out false = Except.ok (fs', b)) :
    (b = false ∧ fs' = fs ∧
      needs_generate_to_path fs sp root out = Except.ok false) ∨
    (b = true ∧ ∃ d, get_file_hash fs sp = some d ∧
      fs' = fsWrite fs out (headerLinesWith spec sp root out (provLines (bytesHex d)))) := by
  unfold generate_header at h
  simp only [Bool.false_eq_true, if_false] at h
  cases hn : needs_generate_to_path fs sp root out with
  | error e => rw [hn] at h; exact absurd h (by simp)
  | ok nb =>
    rw [hn] at h
    cases nb with
    | false =>
      simp only [Except.ok.injEq, Prod.mk.injEq] at h
      exact Or.inl ⟨h.2.symm, h.1.symm, rfl⟩
    | true =>
      cases hp : render_proj_metadata fs sp with
      | error e => rw [hp] at h; exact absurd h (by simp)
      | ok prov =>
        rw [hp] at h
        simp only [Except.ok.injEq, Prod.mk.injEq] at h
        unfold render_proj_metadata at hp
        cases hh : get_file_hash fs sp with
        | none => rw [hh] at hp; exact absurd hp (by simp)
        | some d =>
          rw [hh] at hp
          simp only [Except.ok.injEq] at hp
          refine Or.inr ⟨h.2.symm, ⟨d, rfl, ?_⟩⟩
          rw [← h.1, ← hp]

theorem generate_source_inv {fs fs' : FS} {spec : SpecVal} {sp root out : FPath}
    {b : Bool}
    (h : generate_source fs spec sp root out false = Except.ok (fs', b)) :
    (b = false ∧ fs' = fs ∧
      needs_generate_to_path fs sp root out = Except.ok false) ∨
    (b = true ∧ ∃ d, get_file_hash fs sp = some d ∧
      fs' = fsWrite fs out (sourceLinesWith spec sp root out (provLines (bytesHex d)))) := by
  unfold generate_source at h
  simp only [Bool.false_eq_true, if_false] at h
  cases hn : needs_generate_to_path fs sp root out with
  | error e => rw [hn] at h; exact absurd h (by simp)
  | ok nb =>
    rw [hn] at h
    cases nb with
    | false =>
      simp only [Except.ok.injEq, Prod.mk.injEq] at h
      exact Or.inl ⟨h.2.symm, h.1.symm, rfl⟩
    | true =>
      cases hp : render_proj_metadata fs sp with
      | error e => rw [hp] at h; exact absurd h (by simp)
      | ok prov =>
        rw [hp] at h
        simp only [Except.ok.injEq, Prod.mk.injEq] at h
        unfold render_proj_metadata at hp
        cases hh : get_file_hash fs sp with
        | none => rw [hh] at hp; exact absurd hp (by simp)
        | some d =>
          rw [hh] at hp
          simp only [Except.ok.injEq] at hp
          refine Or.inr ⟨h.2.symm, ⟨d, rfl, ?_⟩⟩
          rw [← h.1, ← hp]

theorem headerLinesWith_shape (spec : SpecVal) (sp root out : FPath) (hx : String) :
    headerLinesWith spec sp root out (provLines hx) =
      disclaimerLines sp root ++ (provLines hx ++
        ([""] ++ (["#ifndef " ++ gen_ifndef_uid out, "#define " ++ gen_ifndef_uid out, ""] ++
          (renderHeaderBody spec ++ ["", "#endif // " ++ gen_ifndef_uid out])))) := by
  unfold headerLinesWith
  simp [List.append_assoc]

theorem sourceLinesWith_shape (spec : SpecVal) (sp root out : FPath) (hx : String) :
    sourceLinesWith spec sp root out (provLines hx) =
      disclaimerLines sp root ++ (provLines hx ++
        ([""] ++ (["#include \x22" ++ get_include_path out ++ "\x22", ""] ++
          renderSourceBody spec))) := by
  unfold sourceLinesWith
  simp [List.append_assoc]

theorem get_file_hash_some {fs : FS} {p : FPath} {c : FileLines}
    (h : fsRead fs p = some c) : get_file_hash fs p = some (hashBytesOf c) := by
  unfold get_file_hash
  rw [h]
  rfl

theorem generate_files_eq (fs : FS) (root : FPath) (cfg : ProjectConfig) (p : FPath)
    (force : Bool) (c : FileLines) (spec : SpecVal)
    (hc : fsRead fs p = some c)
    (hl : loadDispatch (lastTwoSuffix (fileNameOf p)) c = Except.ok spec) :
    generate_files fs root cfg p force =
      match generate_header fs spec p root (hdrOf cfg p) force with
      | Except.error e => Except.error e
      | Except.ok (fs1, wroteH) =>
        match generate_source fs1 spec p root (srcOf cfg p) force with
        | Except.error e => Except.error e
        | Except.ok (fs2, wroteS) =>
          Except.ok (fs2, (if wroteH then [hdrOf cfg p] else []) ++
            (if wroteS then [srcOf cfg p] else [])) := by
  unfold generate_files
  simp only [hc, hl]
  rfl

theorem generate_files_skip (fs : FS) (root : FPath) (cfg : ProjectConfig) (p : FPath)
    (hs : Settled fs cfg p) :
    generate_files fs root cfg p false = Except.ok (fs, []) := by
  obtain ⟨⟨c, spec, hc, hl⟩, hH, hS⟩ := hs
  rw [generate_files_eq fs root cfg p false c spec hc hl]
  simp only [generate_header_skip fs spec p root _ (needs_false_of_OutSettled hH),
    generate_source_skip fs spec p root _ (needs_false_of_OutSettled hS)]
  simp

theorem generate_files_settles {fs fs' : FS} {root : FPath} {cfg : ProjectConfig}
    {p : FPath} {w : List FPath}
    (h : generate_files fs root cfg p false = Except.ok (fs', w))
    (hph : p ≠ hdrOf cfg p) (hps : p ≠ srcOf cfg p)
    (hhs : hdrOf cfg p ≠ srcOf cfg p) :
    Settled fs' cfg p ∧
      ∀ q, q ≠ hdrOf cfg p → q ≠ srcOf cfg p → fsRead fs' q = fsRead fs q := by
  cases hc : fsRead fs p with
  | none =>
    unfold generate_files at h
    rw [hc] at h
    exact absurd h (by simp)
  | some c =>
    unfold generate_files at h
    simp only [hc] at h
    cases hl : loadDispatch (lastTwoSuffix (fileNameOf p)) c with
    | error e =>
      rw [hl] at h
      exact absurd h (by simp)
    | ok spec =>
      simp only [hl] at h
      have hsrcdef : get_source_path (hdrOf cfg p) = srcOf cfg p := rfl
      rw [hsrcdef] at h
      cases hgh : generate_header fs spec p root (hdrOf cfg p) false with
      | error e =>
        rw [hgh] at h
        exact absurd h (by simp)
      | ok fsb =>
        obtain ⟨fs1, bH⟩ := fsb
        simp only [hgh] at h
        -- step 1: the header output is settled in fs1 and fs1 only differs at it
        have step1 : OutSettled fs1 p (hdrOf cfg p) ∧
            ∀ q, q ≠ hdrOf cfg p → fsRead fs1 q = fsRead fs q := by
          rcases generate_header_inv hgh with ⟨_, hfs1, hneed⟩ | ⟨_, d, hd, hfs1⟩
          · subst hfs1
            exact ⟨OutSettled_of_needs_false hneed, fun q _ => rfl⟩
          · have hdc : d = hashBytesOf c := by
              rw [get_file_hash_some hc] at hd
              exact (Option.some.injEq _ _ ▸ hd).symm
            subst hdc
            subst hfs1
            constructor
            · right
              refine ⟨hashBytesOf c, ?_, ?_⟩
              · apply get_existing_hash_of_written _ _ (disclaimerLines p root) _
                  (disclaimer_not_start p root) _ (hashBytesOf_lt c)
                rw [fsRead_fsWrite_self, headerLinesWith_shape]
              · apply get_file_hash_some
                rw [fsRead_fsWrite_ne _ _ _ _ hph]
                exact hc
            · intro q hq
              exact fsRead_fsWrite_ne _ _ _ _ hq
        obtain ⟨hOH1, hpres1⟩ := step1
        have hc1 : fsRead fs1 p = some c := by
          rw [hpres1 p hph]
          exact hc
        cases hgs : generate_source fs1 spec p root (srcOf cfg p) false with
        | error e =>
          rw [hgs] at h
          exact absurd h (by simp)
        | ok fsb2 =>
          obtain ⟨fs2, bS⟩ := fsb2
          simp only [hgs] at h
          -- step 2: the source output is settled in fs2 and fs2 only differs at it
          have step2 : OutSettled fs2 p (srcOf cfg p) ∧
              ∀ q, q ≠ srcOf cfg p → fsRead fs2 q = fsRead fs1 q := by
            rcases generate_source_inv hgs with ⟨_, hfs2, hneed⟩ | ⟨_, d, hd, hfs2⟩
            · subst hfs2
              exact ⟨OutSettled_of_needs_false hneed, fun q _ => rfl⟩
            · have hdc : d = hashBytesOf c := by
                rw [get_file_hash_some hc1] at hd
                exact (Option.some.injEq _ _ ▸ hd).symm
              subst hdc
              subst hfs2
              constructor
              · right
                refine ⟨hashBytesOf c, ?_, ?_⟩
                · apply get_existing_hash_of_written _ _ (disclaimerLines p root) _
                    (disclaimer_not_start p root) _ (hashBytesOf_lt c)
                  rw [fsRead_fsWrite_self, sourceLinesWith_shape]
                · apply get_file_hash_some
                  rw [fsRead_fsWrite_ne _ _ _ _ hps]
                  exact hc1
              · intro q hq
                exact fsRead_fsWrite_ne _ _ _ _ hq
          obtain ⟨hOS2, hpres2⟩ := step2
          have hfs' : fs' = fs2 := by
            simp only [Except.ok.injEq, Prod.mk.injEq] at h
            exact h.1.symm
          subst hfs'
          have hc2 : fsRead fs' p = some c := by
            rw [hpres2 p hps]
            exact hc1
          refine ⟨⟨⟨c, spec, hc2, hl⟩, ?_, hOS2⟩, ?_⟩
          · exact OutSettled_congr hOH1 (hpres2 _ hhs) (hpres2 p hps)
          · intro q hq1 hq2
            rw [hpres2 q hq2]
            exact hpres1 q hq1

theorem outsOf_cons (cfg : ProjectConfig) (p : FPath) (rest : List FPath) :
    outsOf cfg (p :: rest) = hdrOf cfg p :: (srcOf cfg p :: outsOf cfg rest) := by
  simp [outsOf]

theorem formatter_ite_id (fs1 : FS) (root : FPath) (cfg : ProjectConfig)
    (w : List FPath) :
    (if w.length > 0 then run_formatter fs1 root cfg w else fs1) = fs1 := by
  unfold run_formatter
  exact ite_self _

theorem run_files_settles (root : FPath) (cfg : ProjectConfig) :
    ∀ (ps : List FPath) (fs fs' : FS) (w : List FPath),
      run_files root cfg false fs ps = Except.ok (fs', w) → RunWF cfg ps →
      (∀ p ∈ ps, Settled fs' cfg p) ∧
        (∀ q, q ∉ outsOf cfg ps → fsRead fs' q = fsRead fs q) := by
  intro ps
  induction ps with
  | nil =>
    intro fs fs' w h hwf
    simp only [run_files, Except.ok.injEq, Prod.mk.injEq] at h
    rw [← h.1]
    exact ⟨by simp, fun q _ => rfl⟩
  | cons p rest ih =>
    intro fs fs' w h hwf
    have hpo : p ∉ outsOf cfg (p :: rest) := hwf.2 p (by simp)
    rw [outsOf_cons] at hpo
    simp only [List.mem_cons, not_or] at hpo
    obtain ⟨hph, hps, hpout⟩ := hpo
    have hnodup := hwf.1
    rw [outsOf_cons] at hnodup
    simp only [List.nodup_cons, List.mem_cons, not_or] at hnodup
    obtain ⟨⟨hhs, hhout⟩, hsout, hnodrest⟩ := hnodup
    have hWFrest : RunWF cfg rest := by
      refine ⟨hnodrest, fun q hq hmem => ?_⟩
      exact hwf.2 q (by simp [hq]) (by rw [outsOf_cons]; simp [hmem])
    simp only [run_files] at h
    cases hgen : generate_files fs root cfg p false with
    | error e =>
      rw [hgen] at h
      exact absurd h (by simp)
    | ok fsb =>
      obtain ⟨fs1, wp⟩ := fsb
      simp only [hgen, formatter_ite_id] at h
      cases hrun : run_files root cfg false fs1 rest with
      | error e =>
        rw [hrun] at h
        exact absurd h (by simp)
      | ok fsb2 =>
        obtain ⟨fs3, ws⟩ := fsb2
        simp only [hrun, Except.ok.injEq, Prod.mk.injEq] at h
        obtain ⟨hset1, hpres1⟩ := generate_files_settles hgen hph hps hhs
        obtain ⟨hsetRest, hpresRest⟩ := ih fs1 fs3 ws hrun hWFrest
        have hfs' : fs' = fs3 := h.1.symm
        subst hfs'
        constructor
        · intro p' hp'
          rcases List.mem_cons.mp hp' with hp'' | hp''
          · subst hp''
            exact Settled_congr hset1 (hpresRest p' hpout)
              (hpresRest _ hhout) (hpresRest _ hsout)
          · exact hsetRest p' hp''
        · intro q hq
          rw [outsOf_cons] at hq
          simp only [List.mem_cons, not_or] at hq
          rw [hpresRest q hq.2.2]
          exact hpres1 q hq.1 hq.2.1

theorem run_files_all_settled (root : FPath) (cfg : ProjectConfig) :
    ∀ (ps : List FPath) (fs : FS), (∀ p ∈ ps, Settled fs cfg p) →
      run_files root cfg false fs ps = Except.ok (fs, []) := by
  intro ps
  induction ps with
  | nil => intro fs _; rfl
  | cons p rest ih =>
    intro fs h
    simp only [run_files]
    rw [generate_files_skip fs root cfg p (h p (by simp))]
    simp only [List.length_nil, gt_iff_lt, Nat.lt_irrefl, if_false]
    rw [ih fs fun q hq => h q (by simp [hq])]
    rfl

/-- C1: the claim (and the spec's first-run scenario) says a spec file whose
outputs do not exist always has them re-rendered even with `force=false`;
the code does the opposite: `needs_generate_to_path` returns `False` for a
missing output and `generate_header` / `generate_source` treat `False` as
"no generation needed", so a first run over a spec with no existing
generated files writes neither output. This theorem evaluates the code at
the failing situation: both outputs missing, `force=false`, and the run
returns the filesystem unchanged with an empty written list. -/
theorem missing_outputs_are_skipped (fs : FS) (root : FPath) (cfg : ProjectConfig)
    (p : FPath) (c : FileLines) (spec : SpecVal)
    (hc : fsRead fs p = some c)
    (hl : loadDispatch (lastTwoSuffix (fileNameOf p)) c = Except.ok spec)
    (hH : fsRead fs (hdrOf cfg p) = none) (hS : fsRead fs (srcOf cfg p) = none) :
    generate_files fs root cfg p false = Except.ok (fs, []) := by
  rw [generate_files_eq fs root cfg p false c spec hc hl]
  simp only [generate_header_skip fs spec p root _ (needs_generate_missing fs p root _ hH),
    generate_source_skip fs spec p root _ (needs_generate_missing fs p root _ hS)]
  simp

theorem missing_outputs_are_skipped_witness :
    generate_files [([ "a.struct.toml" ], ["name = pt"])] [] ⟨".h"⟩
        ["a.struct.toml"] false =
      Except.ok ([([ "a.struct.toml" ], ["name = pt"])], []) :=
  missing_outputs_are_skipped [([ "a.struct.toml" ], ["name = pt"])] [] ⟨".h"⟩
    ["a.struct.toml"] ["name = pt"] (SpecVal.struct ⟨"pt"⟩)
    (by decide) (by decide) (by decide) (by decide)

/-- C2: idempotence. For every set of spec files (with the section 1
independence assumption that distinct spec files have distinct,
non-overlapping output pairs), if `run_dtgen` with `force=false` completes,
running it again changes nothing: the second run performs zero writes and
returns the byte-identical filesystem. -/
theorem run_dtgen_idempotent (fs : FS) (root : FPath) (cfg : ProjectConfig)
    (ps : List FPath) (fs1 : FS) (w1 : List FPath)
    (hwf : RunWF cfg ps)
    (h1 : run_dtgen fs root cfg false (some ps) = Except.ok (fs1, w1)) :
    run_dtgen fs1 root cfg false (some ps) = Except.ok (fs1, []) := by
  unfold run_dtgen at h1 ⊢
  obtain ⟨hset, _⟩ := run_files_settles root cfg ps fs fs1 w1 h1 hwf
  exact run_files_all_settled root cfg ps fs1 hset

theorem run_dtgen_idempotent_witness :
    run_dtgen [([ "a.struct.toml" ], ["name = pt"])] [] ⟨".h"⟩ false
        (some [["a.struct.toml"]]) =
      Except.ok ([([ "a.struct.toml" ], ["name = pt"])], []) :=
  run_dtgen_idempotent [([ "a.struct.toml" ], ["name = pt"])] [] ⟨".h"⟩
    [["a.struct.toml"]] [([ "a.struct.toml" ], ["name = pt"])] []
    ⟨by decide, by decide⟩ (by decide)

/-- C4: provenance round-trip. For every digest the hash provider can
produce for a spec file, embedding it with `render_proj_metadata` and
extracting it back from the written file through `load_proj_metadata` /
`get_existing_hash` recovers exactly that digest. -/
theorem provenance_roundtrip (fs : FS) (spec_path out : FPath) (d : List Nat)
    (L : FileLines)
    (hrender : render_proj_metadata fs spec_path = Except.ok L)
    (hdig : get_file_hash fs spec_path = some d) :
    get_existing_hash (fsWrite fs out L) out = Except.ok (some d) := by
  unfold render_proj_metadata at hrender
  rw [hdig] at hrender
  simp only [Except.ok.injEq] at hrender
  subst hrender
  have hd : ∀ b ∈ d, b < 256 := by
    unfold get_file_hash at hdig
    cases hr : fsRead fs spec_path with
    | none => rw [hr] at hdig; exact absurd hdig (by simp)
    | some c =>
      rw [hr] at hdig
      simp only [Option.map_some', Option.some.injEq] at hdig
      rw [← hdig]
      exact hashBytesOf_lt c
  apply get_existing_hash_of_written _ _ [] [] (by simp) d hd
  rw [fsRead_fsWrite_self]
  simp

theorem provenance_roundtrip_witness :
    get_existing_hash
        (fsWrite [([ "s.struct.toml" ], ["name = pt"])] ["out.h"]
          (provLines (bytesHex (hashBytesOf ["name = pt"])))) ["out.h"] =
      Except.ok (some (hashBytesOf ["name = pt"])) :=
  provenance_roundtrip [([ "s.struct.toml" ], ["name = pt"])] ["s.struct.toml"]
    ["out.h"] (hashBytesOf ["name = pt"])
    (provLines (bytesHex (hashBytesOf ["name = pt"]))) (by decide) (by decide)

theorem generate_files_force (fs : FS) (root : FPath) (cfg : ProjectConfig)
    (p : FPath) (c : FileLines) (spec : SpecVal)
    (hc : fsRead fs p = some c)
    (hl : loadDispatch (lastTwoSuffix (fileNameOf p)) c = Except.ok spec)
    (hph : p ≠ hdrOf cfg p) :
    generate_files fs root cfg p true = Except.ok
      (fsWrite (fsWrite fs (hdrOf cfg p)
          (headerLinesWith spec p root (hdrOf cfg p)
            (provLines (bytesHex (hashBytesOf c)))))
        (srcOf cfg p)
        (sourceLinesWith spec p root (srcOf cfg p)
          (provLines (bytesHex (hashBytesOf c)))),
      [hdrOf cfg p, srcOf cfg p]) := by
  rw [generate_files_eq fs root cfg p true c spec hc hl]
  simp only [generate_header_go fs spec p root (hdrOf cfg p) true (hashBytesOf c)
    rfl (get_file_hash_some hc)]
  have hc1 : fsRead (fsWrite fs (hdrOf cfg p)
      (headerLinesWith spec p root (hdrOf cfg p)
        (provLines (bytesHex (hashBytesOf c))))) p = some c := by
    rw [fsRead_fsWrite_ne _ _ _ _ hph]
    exact hc
  simp only [generate_source_go _ spec p root (srcOf cfg p) true (hashBytesOf c)
    rfl (get_file_hash_some hc1)]
  simp

/-- C5: force override. With `force=true` the generator writes both the
header and the source output for every loadable spec file, with no
condition whatsoever on the existing outputs' provenance — in particular
even when both recorded hashes match and a `force=false` run would skip
both. -/
theorem force_regenerates_both (fs : FS) (root : FPath) (cfg : ProjectConfig)
    (p : FPath) (c : FileLines) (spec : SpecVal)
    (hc : fsRead fs p = some c)
    (hl : loadDispatch (lastTwoSuffix (fileNameOf p)) c = Except.ok spec)
    (hph : p ≠ hdrOf cfg p) :
    generate_files fs root cfg p true = Except.ok
      (fsWrite (fsWrite fs (hdrOf cfg p)
          (headerLinesWith spec p root (hdrOf cfg p)
            (provLines (bytesHex (hashBytesOf c)))))
        (srcOf cfg p)
        (sourceLinesWith spec p root (srcOf cfg p)
          (provLines (bytesHex (hashBytesOf c)))),
      [hdrOf cfg p, srcOf cfg p]) :=
  generate_files_force fs root cfg p c spec hc hl hph

theorem force_regenerates_both_witness :
    generate_files [([ "a.struct.toml" ], ["name = pt"])] [] ⟨".h"⟩
        ["a.struct.toml"] true = Except.ok
      (fsWrite (fsWrite [([ "a.struct.toml" ], ["name = pt"])] ["a.dtg.h"]
          (headerLinesWith (SpecVal.struct ⟨"pt"⟩) ["a.struct.toml"] [] ["a.dtg.h"]
            (provLines (bytesHex (hashBytesOf ["name = pt"])))))
        ["a.dtg.c"]
        (sourceLinesWith (SpecVal.struct ⟨"pt"⟩) ["a.struct.toml"] [] ["a.dtg.c"]
          (provLines (bytesHex (hashBytesOf ["name = pt"])))),
      [["a.dtg.h"], ["a.dtg.c"]]) :=
  force_regenerates_both [([ "a.struct.toml" ], ["name = pt"])] [] ⟨".h"⟩
    ["a.struct.toml"] ["name = pt"] (SpecVal.struct ⟨"pt"⟩)
    (by decide) (by decide) (by decide)

/-- C7 counterexample: the claim says extraction returns `None` when the
text between the markers fails to parse; in the code `json.loads` is called
with no handler, so a well-delimited but unparseable block raises a
`JSONDecodeError` instead of returning `None`. -/
theorem parse_failure_raises :
    load_proj_metadata_lines ["/* proj-data", "garbage", "*/"] =
      Except.error PyErr.jsonDecodeError := by decide

theorem load_none_of_unfinished (L : List String) (f : String)
    (h : scanLines L false "" = Except.ok (false, f)) :
    load_proj_metadata_lines L = Except.ok none := by
  unfold load_proj_metadata_lines
  rw [h]
  rfl

/-- C7 (amended): extraction returns `None`, without raising, whenever the
end marker is never found; but when the accumulated text between the
markers fails to parse, it raises a decode error instead of returning
`None`. This theorem proves the surviving half: an unfinished scan yields
`None`. -/
theorem unfinished_scan_returns_none (L : List String) (f : String)
    (h : scanLines L false "" = Except.ok (false, f)) :
    load_proj_metadata_lines L = Except.ok none :=
  load_none_of_unfinished L f h

theorem unfinished_scan_returns_none_witness :
    load_proj_metadata_lines ["/* proj-data", "x"] = Except.ok none :=
  unfinished_scan_returns_none ["/* proj-data", "x"] "x" (by decide)

/-- C8 counterexample: the claim says an error in one spec file must not
abort processing of the remaining spec files; in the code `run_dtgen` has
no per-file handler, so the first failing spec aborts the entire run. Here
the first spec file is malformed and the whole run errors, while running
the second spec file alone writes both of its stale outputs — so it had
pending work that the aborted run never performed. -/
theorem error_aborts_run_cex :
    run_dtgen
        [([ "bad.struct.toml" ], ["garbage"]),
         ([ "b.struct.toml" ], ["name = q"]),
         ([ "b.dtg.h" ], provLines "00"),
         ([ "b.dtg.c" ], provLines "00")] [] ⟨".h"⟩ false
        (some [["bad.struct.toml"], ["b.struct.toml"]]) =
      Except.error PyErr.specLoadError ∧
    Except.map Prod.snd (run_dtgen
        [([ "bad.struct.toml" ], ["garbage"]),
         ([ "b.struct.toml" ], ["name = q"]),
         ([ "b.dtg.h" ], provLines "00"),
         ([ "b.dtg.c" ], provLines "00")] [] ⟨".h"⟩ false
        (some [["b.struct.toml"]])) =
      Except.ok [["b.dtg.h"], ["b.dtg.c"]] := by
  constructor
  · decide
  · decide

/-- C8 (amended): the propagation boundary is the whole run, not the spec
file: an error while processing one spec file aborts `run_dtgen`, and the
remaining spec files are not processed (fail-fast, as section 4.7
documents). -/
theorem run_dtgen_fail_fast (fs : FS) (root : FPath) (cfg : ProjectConfig)
    (force : Bool) (e : PyErr) (p : FPath) (rest : List FPath)
    (h : generate_files fs root cfg p force = Except.error e) :
    run_dtgen fs root cfg force (some (p :: rest)) = Except.error e := by
  unfold run_dtgen
  simp only [Option.getD_some, run_files, h]

theorem run_dtgen_fail_fast_witness :
    run_dtgen [([ "bad.struct.toml" ], ["garbage"])] [] ⟨".h"⟩ false
        (some [["bad.struct.toml"], ["other.struct.toml"]]) =
      Except.error PyErr.specLoadError :=
  run_dtgen_fail_fast [([ "bad.struct.toml" ], ["garbage"])] [] ⟨".h"⟩ false
    PyErr.specLoadError ["bad.struct.toml"] [["other.struct.toml"]] (by decide)

/-- C10: when an existing output carries a well-formed provenance block
whose `generated_from` value is not valid hexadecimal, `get_existing_hash`
raises `ValueError` (from `bytes.fromhex`) instead of treating the
provenance as unknown, and the staleness check `needs_generate_to_path`
propagates the crash instead of forcing regeneration. -/
theorem invalid_hex_crashes (fs : FS) (spec_path root out : FPath) (L : FileLines)
    (md : List (String × String)) (hx : String)
    (hread : fsRead fs out = some L)
    (hmd : load_proj_metadata_lines L = Except.ok (some md))
    (hlk : md.lookup "generated_from" = some hx)
    (hbad : bytes_fromhex hx = Except.error PyErr.valueError) :
    get_existing_hash fs out = Except.error PyErr.valueError ∧
    needs_generate_to_path fs spec_path root out = Except.error PyErr.valueError := by
  have hload : load_proj_metadata fs out = Except.ok (some md) := by
    unfold load_proj_metadata
    rw [hread]
    exact hmd
  have h1 : get_existing_hash fs out = Except.error PyErr.valueError := by
    unfold get_existing_hash
    simp only [hread, hload, hlk, hbad]
    rfl
  exact ⟨h1, needs_generate_err fs spec_path root out L _ hread h1⟩

theorem invalid_hex_crashes_witness :
    get_existing_hash [([ "o.dtg.h" ], provLines "zz")] ["o.dtg.h"] =
        Except.error PyErr.valueError ∧
      needs_generate_to_path [([ "o.dtg.h" ], provLines "zz")] ["s.struct.toml"]
          [] ["o.dtg.h"] =
        Except.error PyErr.valueError :=
  invalid_hex_crashes [([ "o.dtg.h" ], provLines "zz")] ["s.struct.toml"] []
    ["o.dtg.h"] (provLines "zz") [("generated_from", "zz")] "zz"
    (by decide) (by decide) (by decide) (by decide)

theorem scanLines_unfinished : ∀ (mid : List String) (acc : String),
    (∀ l ∈ mid, pyRstrip l ≠ provMarkerStart ∧ pyRstrip l ≠ provMarkerEnd) →
    ∃ acc', scanLines mid true acc = Except.ok (false, acc') := by
  intro mid
  induction mid with
  | nil => intro acc _; exact ⟨acc, rfl⟩
  | cons a t ih =>
    intro acc h
    rw [scanLines_cons_acc a t acc (h a (by simp)).1 (h a (by simp)).2]
    exact ih _ fun l hl => h l (by simp [hl])

/-- C6: corruption resilience. For any output file whose content is some
lines without the start marker, then the start marker, then lines that
reach neither marker (a generated file truncated after the start marker
and before the end marker is exactly of this shape), provenance extraction
returns `None` (no exception), the staleness oracle reports regeneration,
and `generate_header` rewrites the output — the same treatment as an
output with no valid prior provenance. -/
theorem truncated_provenance_regenerates (fs : FS) (root spec_path out : FPath)
    (pre mid : List String) (c : FileLines) (spec : SpecVal)
    (hpre : ∀ l ∈ pre, pyRstrip l ≠ provMarkerStart)
    (hmid : ∀ l ∈ mid, pyRstrip l ≠ provMarkerStart ∧ pyRstrip l ≠ provMarkerEnd)
    (hread : fsRead fs out = some (pre ++ (provMarkerStart :: mid)))
    (hc : fsRead fs spec_path = some c) :
    get_existing_hash fs out = Except.ok none ∧
    needs_generate_to_path fs spec_path root out = Except.ok true ∧
    generate_header fs spec spec_path root out false =
      Except.ok (fsWrite fs out (headerLinesWith spec spec_path root out
        (provLines (bytesHex (hashBytesOf c)))), true) := by
  have hscan : ∃ acc', scanLines (pre ++ (provMarkerStart :: mid)) false "" =
      Except.ok (false, acc') := by
    rw [scanLines_append_skip pre hpre, scanLines_cons_start _ _ _ (by decide)]
    exact scanLines_unfinished mid "" hmid
  obtain ⟨acc', hscan⟩ := hscan
  have hload : load_proj_metadata_lines (pre ++ (provMarkerStart :: mid)) =
      Except.ok none := load_none_of_unfinished _ _ hscan
  have hl2 : load_proj_metadata fs out = Except.ok none := by
    unfold load_proj_metadata
    rw [hread]
    exact hload
  have hgeh : get_existing_hash fs out = Except.ok none := by
    unfold get_existing_hash
    simp only [hread, hl2]
  have hneed : needs_generate_to_path fs spec_path root out = Except.ok true :=
    needs_generate_stale fs spec_path root out _ none (hashBytesOf c) hread hgeh
      (get_file_hash_some hc) (by simp)
  refine ⟨hgeh, hneed, ?_⟩
  apply generate_header_go fs spec spec_path root out false (hashBytesOf c)
  · simp only [Bool.false_eq_true, if_false]
    exact hneed
  · exact get_file_hash_some hc

theorem truncated_provenance_regenerates_witness :
    get_existing_hash
        [([ "a.dtg.h" ], ["// x", "/* proj-data", "\x7b"]),
         ([ "a.struct.toml" ], ["name = pt"])] ["a.dtg.h"] = Except.ok none ∧
      needs_generate_to_path
        [([ "a.dtg.h" ], ["// x", "/* proj-data", "\x7b"]),
         ([ "a.struct.toml" ], ["name = pt"])] ["a.struct.toml"] [] ["a.dtg.h"] =
        Except.ok true ∧
      generate_header
        [([ "a.dtg.h" ], ["// x", "/* proj-data", "\x7b"]),
         ([ "a.struct.toml" ], ["name = pt"])] (SpecVal.struct ⟨"pt"⟩)
        ["a.struct.toml"] [] ["a.dtg.h"] false =
        Except.ok (fsWrite
          [([ "a.dtg.h" ], ["// x", "/* proj-data", "\x7b"]),
           ([ "a.struct.toml" ], ["name = pt"])] ["a.dtg.h"]
          (headerLinesWith (SpecVal.struct ⟨"pt"⟩) ["a.struct.toml"] [] ["a.dtg.h"]
            (provLines (bytesHex (hashBytesOf ["name = pt"])))), true) :=
  truncated_provenance_regenerates
    [([ "a.dtg.h" ], ["// x", "/* proj-data", "\x7b"]),
     ([ "a.struct.toml" ], ["name = pt"])] [] ["a.struct.toml"] ["a.dtg.h"]
    ["// x"] ["\x7b"] ["name = pt"] (SpecVal.struct ⟨"pt"⟩)
    (by decide) (by decide) (by decide) (by decide)

/-- C3: change sensitivity. Starting from the outputs of a prior
generation, mutating the spec file's content so that its content hash
changes and rerunning with `force=false` rewrites both the header and the
source, and each rewritten output embeds a `generated_from` digest equal to
the hash of the new spec content. -/
theorem change_sensitivity (fs fs1 : FS) (root : FPath) (cfg : ProjectConfig)
    (p : FPath) (c1 c2 : FileLines) (w : List FPath) (spec2 : SpecVal)
    (hc1 : fsRead fs p = some c1)
    (h1 : generate_files fs root cfg p true = Except.ok (fs1, w))
    (hl2 : loadDispatch (lastTwoSuffix (fileNameOf p)) c2 = Except.ok spec2)
    (hph : p ≠ hdrOf cfg p) (hps : p ≠ srcOf cfg p)
    (hhs : hdrOf cfg p ≠ srcOf cfg p)
    (hne : hashBytesOf c2 ≠ hashBytesOf c1) :
    ∃ fs3, generate_files (fsWrite fs1 p c2) root cfg p false =
        Except.ok (fs3, [hdrOf cfg p, srcOf cfg p]) ∧
      get_existing_hash fs3 (hdrOf cfg p) = Except.ok (some (hashBytesOf c2)) ∧
      get_existing_hash fs3 (srcOf cfg p) = Except.ok (some (hashBytesOf c2)) := by
  cases hl1 : loadDispatch (lastTwoSuffix (fileNameOf p)) c1 with
  | error e =>
    unfold generate_files at h1
    simp only [hc1, hl1] at h1
    exact absurd h1 (by simp)
  | ok spec1 =>
    rw [generate_files_force fs root cfg p c1 spec1 hc1 hl1 hph] at h1
    simp only [Except.ok.injEq, Prod.mk.injEq] at h1
    have hfs1 : fs1 = fsWrite (fsWrite fs (hdrOf cfg p)
        (headerLinesWith spec1 p root (hdrOf cfg p)
          (provLines (bytesHex (hashBytesOf c1)))))
        (srcOf cfg p)
        (sourceLinesWith spec1 p root (srcOf cfg p)
          (provLines (bytesHex (hashBytesOf c1)))) := h1.1.symm
    subst hfs1
    set HL1 := headerLinesWith spec1 p root (hdrOf cfg p)
      (provLines (bytesHex (hashBytesOf c1))) with hHL1
    set SL1 := sourceLinesWith spec1 p root (srcOf cfg p)
      (provLines (bytesHex (hashBytesOf c1))) with hSL1
    set HL2 := headerLinesWith spec2 p root (hdrOf cfg p)
      (provLines (bytesHex (hashBytesOf c2))) with hHL2
    set SL2 := sourceLinesWith spec2 p root (srcOf cfg p)
      (provLines (bytesHex (hashBytesOf c2))) with hSL2
    set fs2 := fsWrite (fsWrite (fsWrite fs (hdrOf cfg p) HL1) (srcOf cfg p) SL1)
      p c2 with hfs2
    set fs2' := fsWrite fs2 (hdrOf cfg p) HL2 with hfs2'
    set fs3 := fsWrite fs2' (srcOf cfg p) SL2 with hfs3
    have hr2p : fsRead fs2 p = some c2 := fsRead_fsWrite_self _ _ _
    have hr2h : fsRead fs2 (hdrOf cfg p) = some HL1 := by
      rw [hfs2, fsRead_fsWrite_ne _ _ _ _ (Ne.symm hph),
        fsRead_fsWrite_ne _ _ _ _ hhs]
      exact fsRead_fsWrite_self _ _ _
    have hr2s : fsRead fs2 (srcOf cfg p) = some SL1 := by
      rw [hfs2, fsRead_fsWrite_ne _ _ _ _ (Ne.symm hps)]
      exact fsRead_fsWrite_self _ _ _
    have hgehH2 : get_existing_hash fs2 (hdrOf cfg p) =
        Except.ok (some (hashBytesOf c1)) := by
      apply get_existing_hash_of_written _ _ (disclaimerLines p root) _
        (disclaimer_not_start p root) _ (hashBytesOf_lt c1)
      rw [hr2h, hHL1, headerLinesWith_shape]
    have hgehS2 : get_existing_hash fs2 (srcOf cfg p) =
        Except.ok (some (hashBytesOf c1)) := by
      apply get_existing_hash_of_written _ _ (disclaimerLines p root) _
        (disclaimer_not_start p root) _ (hashBytesOf_lt c1)
      rw [hr2s, hSL1, sourceLinesWith_shape]
    have hgf2 : get_file_hash fs2 p = some (hashBytesOf c2) := get_file_hash_some hr2p
    have hneSome : (some (hashBytesOf c1) : Option (List Nat)) ≠
        some (hashBytesOf c2) := by
      intro he
      exact hne (Option.some.inj he).symm
    have hneedH : needs_generate_to_path fs2 p root (hdrOf cfg p) = Except.ok true :=
      needs_generate_stale fs2 p root _ HL1 (some (hashBytesOf c1))
        (hashBytesOf c2) hr2h hgehH2 hgf2 hneSome
    have hr2'p : fsRead fs2' p = some c2 := by
      rw [hfs2', fsRead_fsWrite_ne _ _ _ _ hph]
      exact hr2p
    have hr2's : fsRead fs2' (srcOf cfg p) = some SL1 := by
      rw [hfs2', fsRead_fsWrite_ne _ _ _ _ (Ne.symm hhs)]
      exact hr2s
    have hgehS2' : get_existing_hash fs2' (srcOf cfg p) =
        Except.ok (some (hashBytesOf c1)) := by
      rw [get_existing_hash_congr (srcOf cfg p)
        (show fsRead fs2' (srcOf cfg p) = fsRead fs2 (srcOf cfg p) by
          rw [hr2's, hr2s])]
      exact hgehS2
    have hgf2' : get_file_hash fs2' p = some (hashBytesOf c2) :=
      get_file_hash_some hr2'p
    have hneedS : needs_generate_to_path fs2' p root (srcOf cfg p) = Except.ok true :=
      needs_generate_stale fs2' p root _ SL1 (some (hashBytesOf c1))
        (hashBytesOf c2) hr2's hgehS2' hgf2' hneSome
    have hgen : generate_files fs2 root cfg p false =
        Except.ok (fs3, [hdrOf cfg p, srcOf cfg p]) := by
      rw [generate_files_eq fs2 root cfg p false c2 spec2 hr2p hl2]
      simp only [generate_header_go fs2 spec2 p root _ false (hashBytesOf c2)
        (by simp only [Bool.false_eq_true, if_false]; exact hneedH) hgf2]
      simp only [generate_source_go fs2' spec2 p root _ false (hashBytesOf c2)
        (by simp only [Bool.false_eq_true, if_false]; exact hneedS) hgf2']
      simp
    have hfh : fsRead fs3 (hdrOf cfg p) = some HL2 := by
      rw [hfs3, fsRead_fsWrite_ne _ _ _ _ hhs]
      exact fsRead_fsWrite_self _ _ _
    have hfsrc : fsRead fs3 (srcOf cfg p) = some SL2 := fsRead_fsWrite_self _ _ _
    refine ⟨fs3, hgen, ?_, ?_⟩
    · apply get_existing_hash_of_written _ _ (disclaimerLines p root) _
        (disclaimer_not_start p root) _ (hashBytesOf_lt c2)
      rw [hfh, hHL2, headerLinesWith_shape]
    · apply get_existing_hash_of_written _ _ (disclaimerLines p root) _
        (disclaimer_not_start p root) _ (hashBytesOf_lt c2)
      rw [hfsrc, hSL2, sourceLinesWith_shape]

theorem change_sensitivity_witness :
    ∃ fs3, generate_files
        (fsWrite
          (fsWrite (fsWrite [([ "a.struct.toml" ], ["name = pt"])] ["a.dtg.h"]
              (headerLinesWith (SpecVal.struct ⟨"pt"⟩) ["a.struct.toml"] []
                ["a.dtg.h"] (provLines (bytesHex (hashBytesOf ["name = pt"])))))
            ["a.dtg.c"]
            (sourceLinesWith (SpecVal.struct ⟨"pt"⟩) ["a.struct.toml"] []
              ["a.dtg.c"] (provLines (bytesHex (hashBytesOf ["name = pt"])))))
          ["a.struct.toml"] ["name = q"]) [] ⟨".h"⟩ ["a.struct.toml"] false =
        Except.ok (fs3, [["a.dtg.h"], ["a.dtg.c"]]) ∧
      get_existing_hash fs3 ["a.dtg.h"] =
        Except.ok (some (hashBytesOf ["name = q"])) ∧
      get_existing_hash fs3 ["a.dtg.c"] =
        Except.ok (some (hashBytesOf ["name = q"])) :=
  change_sensitivity [([ "a.struct.toml" ], ["name = pt"])]
    (fsWrite (fsWrite [([ "a.struct.toml" ], ["name = pt"])] ["a.dtg.h"]
        (headerLinesWith (SpecVal.struct ⟨"pt"⟩) ["a.struct.toml"] []
          ["a.dtg.h"] (provLines (bytesHex (hashBytesOf ["name = pt"])))))
      ["a.dtg.c"]
      (sourceLinesWith (SpecVal.struct ⟨"pt"⟩) ["a.struct.toml"] []
        ["a.dtg.c"] (provLines (bytesHex (hashBytesOf ["name = pt"])))))
    [] ⟨".h"⟩ ["a.struct.toml"] ["name = pt"] ["name = q"]
    [["a.dtg.h"], ["a.dtg.c"]] (SpecVal.struct ⟨"q"⟩)
    (by decide) (by decide) (by decide) (by decide) (by decide) (by decide)
    (by decide)

/-- C9: exclusion correctness of discovery. A path is yielded by
`find_files` exactly when it is a file, lies strictly below the root, its
filename ends with one of the three recognized double suffixes, and it is
not contained (path containment, component-wise prefix) in any of the
excluded subtrees `root/triton`, `root/deps`, `root/build` — so nothing
inside an excluded subtree is ever yielded, and every matching file outside
them is. -/
theorem find_files_mem (fs : FS) (root p : FPath) :
    p ∈ find_files fs root ↔
      (p ∈ fs.map Prod.fst ∧ (root <+: p ∧ p ≠ root) ∧
        (((".struct.toml" : String).data <:+ (fileNameOf p).data) ∨
         ((".enum.toml" : String).data <:+ (fileNameOf p).data) ∨
         ((".variant.toml" : String).data <:+ (fileNameOf p).data)) ∧
        ¬((root ++ ["triton"]) <+: p ∨ (root ++ ["deps"]) <+: p ∨
          (root ++ ["build"]) <+: p)) := by
  have hlen : root <+: p → (root.length < p.length ↔ p ≠ root) := by
    intro hpre
    constructor
    · intro hlt he
      rw [he] at hlt
      exact Nat.lt_irrefl _ hlt
    · intro hne
      rcases Nat.lt_or_ge root.length p.length with h | h
      · exact h
      · exact absurd (List.IsPrefix.eq_of_length hpre
          (Nat.le_antisymm hpre.length_le h)).symm hne
  have hpl : (root <+: p ∧ root.length < p.length) ↔ (root <+: p ∧ p ≠ root) := by
    constructor
    · rintro ⟨h1, h2⟩
      exact ⟨h1, (hlen h1).mp h2⟩
    · rintro ⟨h1, h2⟩
      exact ⟨h1, (hlen h1).mpr h2⟩
  have hbl : ∀ q : FPath, ((List.isPrefixOf (root ++ ["triton"]) q ||
        List.isPrefixOf (root ++ ["deps"]) q ||
        List.isPrefixOf (root ++ ["build"]) q) = false) ↔
      ¬((root ++ ["triton"]) <+: q ∨ (root ++ ["deps"]) <+: q ∨
        (root ++ ["build"]) <+: q) := by
    intro q
    simp [Bool.or_eq_false_iff, Bool.eq_false_iff, List.isPrefixOf_iff_prefix,
      not_or, and_assoc]
  simp only [find_files, specPatterns, List.mem_flatMap, List.mem_filter,
    List.mem_cons, List.not_mem_nil, or_false, rglobMatch, is_blacklisted,
    Bool.and_eq_true, Bool.or_eq_true, Bool.not_eq_true',
    List.isPrefixOf_iff_prefix, List.isSuffixOf_iff_suffix, decide_eq_true_eq,
    exists_eq_or_imp, exists_eq_left, hpl, hbl]
  tauto

end DtGen
